import Mathlib

/-!
Verification development for the refactoring-assistant tool (`src/main.rs`).

The program reads each file matching a glob pattern, asks an OpenAI chat
completion to transform it, extracts the transformed content from between
`<CHANGED_FILE_CONTENTS>` markers, writes it to the file, and optionally runs a
shell validation command, retrying up to `n_retries` times.

The embedding below models text as `List Char` (the markers are ASCII, so byte
indices of Rust's `str::find` and char indices are order-isomorphic on every
input), the file system as the explicit content of the single file being
processed, and the network/validator as oracles indexed by the attempt number.
Rust's `?` early returns become explicit error results, and the out-of-order
slice panic `&output[start..end]` with `start > end` becomes an explicit
`panicked` outcome that aborts the whole batch.
-/

set_option maxHeartbeats 1000000

namespace RefactorAssistant

/-- The Unicode `White_Space` property, as used by Rust's `str::trim`
(`char::is_whitespace`). -/
def rustIsWhitespace (c : Char) : Bool :=
  (0x09 ≤ c.val && c.val ≤ 0x0D) || c.val == 0x20 || c.val == 0x85 ||
  c.val == 0xA0 || c.val == 0x1680 || (0x2000 ≤ c.val && c.val ≤ 0x200A) ||
  c.val == 0x2028 || c.val == 0x2029 || c.val == 0x202F || c.val == 0x205F ||
  c.val == 0x3000

/-- Rust's `str::trim`: remove leading and trailing whitespace. -/
def trim (s : List Char) : List Char :=
  ((s.dropWhile rustIsWhitespace).reverse.dropWhile rustIsWhitespace).reverse

/-- Rust's `str::find` with a string pattern: the least index (here: char
index) at which `needle` occurs as a contiguous sublist of `hay`, if any. -/
def findSub (hay needle : List Char) : Option Nat :=
  match hay with
  | [] => if needle.isPrefixOf ([] : List Char) then some 0 else none
  | _ :: rest =>
      if needle.isPrefixOf hay then some 0
      else (findSub rest needle).map (· + 1)

/-- `let start_tag = "<CHANGED_FILE_CONTENTS>";` (main.rs line 155). -/
def start_tag : List Char := "<CHANGED_FILE_CONTENTS>".data

/-- `let end_tag = "</CHANGED_FILE_CONTENTS>";` (main.rs line 156). -/
def end_tag : List Char := "</CHANGED_FILE_CONTENTS>".data

/-- Outcome of the marker-extraction step (main.rs lines 157-159). -/
inductive ExtractOutcome where
  | ok (content : List Char)
  | startNotFound
  | endNotFound
  | panicked
deriving DecidableEq, Repr

/-- Lines 157-159 of main.rs:
`let start = output.find(start_tag).ok_or("Start tag not found")? + start_tag.len();`
`let end = output.find(end_tag).ok_or("End tag not found")?;`
`let transformed_content = &output[start..end].trim();`
Note the second `find` runs over the whole `output`, from index 0; when the
resulting `end` is smaller than `start`, the slice `output[start..end]`
panics at runtime. -/
def extractChanged (output : List Char) : ExtractOutcome :=
  match findSub output start_tag with
  | none => .startNotFound
  | some s =>
      let start := s + start_tag.length
      match findSub output end_tag with
      | none => .endNotFound
      | some e =>
          if start ≤ e then .ok (trim (List.take (e - start) (List.drop start output)))
          else .panicked

/-- Modelled from the spec: the extraction step as the specification words it,
with the end-marker search beginning at the offset following the begin marker
("the first end marker found after it"; "end-marker search must begin at or
after the offset following the begin marker").  Used only to compare against
`extractChanged`, which is the code's actual behaviour. -/
def specExtract (output : List Char) : Option (List Char) :=
  match findSub output start_tag with
  | none => none
  | some s =>
      let start := s + start_tag.length
      match findSub (List.drop start output) end_tag with
      | none => none
      | some e => some (trim (List.take e (List.drop start output)))

example : extractChanged "<CHANGED_FILE_CONTENTS> hi </CHANGED_FILE_CONTENTS>".data
    = .ok "hi".data := by decide

example : extractChanged "no markers".data = .startNotFound := by decide

/-- The final user message of the request (main.rs lines 128-134):
`format!("<INSTRUCTION>\n{}\n</INSTRUCTION>\n\n<FILECONTENTS>\n{}\n</FILECONTENTS>", instruction, current_content)`. -/
def userPrompt (instruction currentContent : List Char) : List Char :=
  "<INSTRUCTION>\n".data ++ instruction ++ "\n</INSTRUCTION>\n\n<FILECONTENTS>\n".data ++
    currentContent ++ "\n</FILECONTENTS>".data

/-- What one completion round-trip (main.rs lines 142-152) can produce:
`transportErr` models `send().await` returning `Err` (line 147's `?`),
`parseErr` models `response.json().await` returning `Err` (line 149's `?`),
`noContent` models `["choices"][0]["message"]["content"].as_str()` being
`None` (line 152's `ok_or`), and `content` is the happy path. -/
inductive CompletionResult where
  | transportErr
  | parseErr
  | noContent
  | content (output : List Char)
deriving DecidableEq, Repr

/-- What `validate_change` (main.rs lines 190-197) can produce: `spawnErr`
models `Command::status()` returning `Err` (propagated by the `?` on
line 166), `exit b` models the child exiting with `status.success() = b`. -/
inductive ValidatorResult where
  | spawnErr
  | exit (success : Bool)
deriving DecidableEq, Repr

/-- The external world for one file: the completion endpoint, as a function of
the attempt number and the final user message, and the validator, as a
function of the attempt number.  Any real trace of network and subprocess
behaviour is described by some `Env`. -/
structure Env where
  complete : Nat → List Char → CompletionResult
  validate : Nat → ValidatorResult

/-- The distinct error values `process_file` can return (each is a `?`
propagation or an `Err(...)` in main.rs). -/
inductive ProcError where
  | transport
  | malformedResponse
  | contentMissing
  | startTagNotFound
  | endTagNotFound
  | validatorSpawn
  | exceededRetryLimit
deriving DecidableEq, Repr

/-- How `process_file` ends: `ok` is `Ok(())`, `err` is `Err(...)` (caught by
`main`, which logs and moves to the next file), `panicked` is the slice panic
at line 159, which unwinds out of `main` and kills the whole run. -/
inductive FileResult where
  | ok
  | err (e : ProcError)
  | panicked
deriving DecidableEq, Repr

/-- Observable record of one loop iteration: the user message sent, the
content written by `fs::write` at line 162 (if reached), the value written by
the restoring `fs::write` at line 173 (if taken), and the value returned by
the `fs::read_to_string` at line 184 (if reached). -/
structure AttemptLog where
  prompt : List Char
  wrote : Option (List Char)
  restoredWith : Option (List Char)
  reRead : Option (List Char)
deriving DecidableEq, Repr

/-- Result of running `process_file` on one file: the function's return value,
the final on-disk content of the file, and the per-attempt log. -/
structure RunOut where
  result : FileResult
  disk : List Char
  trace : List AttemptLog
deriving DecidableEq, Repr

/-- The retry loop of `process_file` (main.rs lines 111-187), from a given
iteration on.  `fuel` is the number of iterations the `for attempt in
0..n_retries` loop has left (so `fuel = nRetries - attempt` throughout);
when it reaches zero the loop falls through to `Err("Exceeded retry limit")`
(line 187).  `current` is `current_content`, `disk` is the file's on-disk
content. -/
def processFrom (env : Env) (instruction original : List Char)
    (validateCommand : Option (List Char)) (nRetries : Nat) :
    Nat → Nat → List Char → List Char → RunOut
  | 0, _attempt, _current, disk => ⟨.err .exceededRetryLimit, disk, []⟩
  | fuel + 1, attempt, current, disk =>
      let prompt := userPrompt instruction current
      match env.complete attempt prompt with
      | .transportErr => ⟨.err .transport, disk, [⟨prompt, none, none, none⟩]⟩
      | .parseErr => ⟨.err .malformedResponse, disk, [⟨prompt, none, none, none⟩]⟩
      | .noContent => ⟨.err .contentMissing, disk, [⟨prompt, none, none, none⟩]⟩
      | .content output =>
          match extractChanged output with
          | .startNotFound => ⟨.err .startTagNotFound, disk, [⟨prompt, none, none, none⟩]⟩
          | .endNotFound => ⟨.err .endTagNotFound, disk, [⟨prompt, none, none, none⟩]⟩
          | .panicked => ⟨.panicked, disk, [⟨prompt, none, none, none⟩]⟩
          | .ok transformed =>
              match validateCommand with
              | none => ⟨.ok, transformed, [⟨prompt, some transformed, none, none⟩]⟩
              | some _ =>
                  match env.validate attempt with
                  | .spawnErr =>
                      ⟨.err .validatorSpawn, transformed, [⟨prompt, some transformed, none, none⟩]⟩
                  | .exit true =>
                      ⟨.ok, transformed, [⟨prompt, some transformed, none, none⟩]⟩
                  | .exit false =>
                      let disk2 := if attempt = nRetries - 1 then original else transformed
                      let next := processFrom env instruction original validateCommand nRetries
                        fuel (attempt + 1) disk2 disk2
                      ⟨next.result, next.disk,
                        ⟨prompt, some transformed,
                          if attempt = nRetries - 1 then some original else none,
                          some disk2⟩ :: next.trace⟩

/-- `process_file` (main.rs lines 98-188): `original_content` is read from the
file exactly once (line 106), `current_content` starts as a clone of it
(line 107), and the retry loop runs `n_retries` iterations. -/
def process_file (env : Env) (instruction : List Char)
    (validate_command : Option (List Char)) (n_retries : Nat)
    (disk0 : List Char) : RunOut :=
  processFrom env instruction disk0 validate_command n_retries n_retries 0 disk0 disk0

/-- One file's worth of inputs to `process_file` in the batch loop of `main`. -/
structure FileJob where
  env : Env
  instruction : List Char
  validate_command : Option (List Char)
  n_retries : Nat
  disk0 : List Char

/-- The batch loop of `main` (main.rs lines 84-93): each matching file is
processed in turn; an `Err` from `process_file` is printed and the loop
continues, while a panic unwinds and aborts the remaining files. -/
def runBatch : List FileJob → List RunOut
  | [] => []
  | j :: rest =>
      let r := process_file j.env j.instruction j.validate_command j.n_retries j.disk0
      if r.result = .panicked then [r] else r :: runBatch rest

/-- Rust's `"…".parse::<usize>()` (main.rs lines 67-71) on a 64-bit target:
an optional leading `+`, then one or more ASCII digits, with an overflow
check against `2 ^ 64`. -/
def parseUsize (s : List Char) : Option Nat :=
  let digits : List Char :=
    match s with
    | '+' :: rest => rest
    | _ => s
  match digits with
  | [] => none
  | _ =>
      let rec go : List Char → Nat → Option Nat
        | [], acc => some acc
        | c :: rest, acc =>
            if '0' ≤ c ∧ c ≤ '9' then go rest (acc * 10 + (c.toNat - '0'.toNat))
            else none
      match go digits 0 with
      | none => none
      | some v => if v < 2 ^ 64 then some v else none

/-- A completion round-trip that aborts the whole `process_file` call through
a `?` or `ok_or`, together with the error it aborts with (lines 147, 149,
152, 157 and 158 of main.rs). -/
def attemptAbortError (c : CompletionResult) : Option ProcError :=
  match c with
  | .transportErr => some .transport
  | .parseErr => some .malformedResponse
  | .noContent => some .contentMissing
  | .content output =>
      match extractChanged output with
      | .startNotFound => some .startTagNotFound
      | .endNotFound => some .endTagNotFound
      | _ => none

/-- A completion round-trip that reaches the `fs::write` at line 162: the
request succeeds, the content field is present, and extraction succeeds. -/
def completionDelivers (c : CompletionResult) : Prop :=
  ∃ output t, c = .content output ∧ extractChanged output = .ok t

/-! ## Helper lemmas about the retry loop -/

/-- A completion round-trip that hits any `?` or `ok_or` failure makes
`process_file` return that error at once: nothing is written, nothing is
restored, and no further iteration runs. -/
theorem processFrom_abort (env : Env) (instruction original : List Char)
    (vc : Option (List Char)) (n fuel attempt : Nat) (current disk : List Char)
    (e : ProcError) (hfuel : 0 < fuel)
    (habort : attemptAbortError (env.complete attempt (userPrompt instruction current)) =
      some e) :
    processFrom env instruction original vc n fuel attempt current disk =
      ⟨.err e, disk, [⟨userPrompt instruction current, none, none, none⟩]⟩ := by
  obtain ⟨f, rfl⟩ : ∃ f, fuel = f + 1 := ⟨fuel - 1, by omega⟩
  cases hc : env.complete attempt (userPrompt instruction current) with
  | transportErr =>
      rw [hc] at habort; simp only [attemptAbortError, Option.some.injEq] at habort
      subst habort; simp [processFrom, hc]
  | parseErr =>
      rw [hc] at habort; simp only [attemptAbortError, Option.some.injEq] at habort
      subst habort; simp [processFrom, hc]
  | noContent =>
      rw [hc] at habort; simp only [attemptAbortError, Option.some.injEq] at habort
      subst habort; simp [processFrom, hc]
  | content output =>
      rw [hc] at habort
      cases hx : extractChanged output with
      | ok t => rw [attemptAbortError, hx] at habort; simp at habort
      | panicked => rw [attemptAbortError, hx] at habort; simp at habort
      | startNotFound =>
          rw [attemptAbortError, hx, Option.some.injEq] at habort
          subst habort; simp [processFrom, hc, hx]
      | endNotFound =>
          rw [attemptAbortError, hx, Option.some.injEq] at habort
          subst habort; simp [processFrom, hc, hx]

/-- Whenever an iteration of the loop runs at all, the head of its trace is an
attempt whose user message embeds the `current_content` the iteration started
with. -/
theorem processFrom_headPrompt (env : Env) (instruction original : List Char)
    (vc : Option (List Char)) (n fuel attempt : Nat) (current disk : List Char)
    (hfuel : 0 < fuel) :
    ((processFrom env instruction original vc n fuel attempt current disk).trace.head?).map
      AttemptLog.prompt = some (userPrompt instruction current) := by
  obtain ⟨f, rfl⟩ : ∃ f, fuel = f + 1 := ⟨fuel - 1, by omega⟩
  cases hc : env.complete attempt (userPrompt instruction current) with
  | transportErr => simp [processFrom, hc]
  | parseErr => simp [processFrom, hc]
  | noContent => simp [processFrom, hc]
  | content output =>
      cases hx : extractChanged output with
      | startNotFound => simp [processFrom, hc, hx]
      | endNotFound => simp [processFrom, hc, hx]
      | panicked => simp [processFrom, hc, hx]
      | ok t =>
          cases vc with
          | none => simp [processFrom, hc, hx]
          | some c =>
              cases hv : env.validate attempt with
              | spawnErr => simp [processFrom, hc, hx, hv]
              | exit success => cases success <;> simp [processFrom, hc, hx, hv]

/-- Every restoring write performed anywhere in the loop writes exactly the
`original` snapshot passed in at the top. -/
theorem processFrom_restoredWith (env : Env) (instruction original : List Char)
    (vc : Option (List Char)) (n : Nat) :
    ∀ fuel attempt current disk lg v,
      lg ∈ (processFrom env instruction original vc n fuel attempt current disk).trace →
      lg.restoredWith = some v → v = original := by
  intro fuel
  induction fuel with
  | zero =>
      intro attempt current disk lg v hmem _
      simp [processFrom] at hmem
  | succ f ih =>
      intro attempt current disk lg v hmem hres
      cases hc : env.complete attempt (userPrompt instruction current) with
      | transportErr => simp [processFrom, hc] at hmem; subst hmem; simp at hres
      | parseErr => simp [processFrom, hc] at hmem; subst hmem; simp at hres
      | noContent => simp [processFrom, hc] at hmem; subst hmem; simp at hres
      | content output =>
          cases hx : extractChanged output with
          | startNotFound => simp [processFrom, hc, hx] at hmem; subst hmem; simp at hres
          | endNotFound => simp [processFrom, hc, hx] at hmem; subst hmem; simp at hres
          | panicked => simp [processFrom, hc, hx] at hmem; subst hmem; simp at hres
          | ok t =>
              cases vc with
              | none => simp [processFrom, hc, hx] at hmem; subst hmem; simp at hres
              | some c =>
                  cases hv : env.validate attempt with
                  | spawnErr => simp [processFrom, hc, hx, hv] at hmem; subst hmem; simp at hres
                  | exit success =>
                      cases success with
                      | true => simp [processFrom, hc, hx, hv] at hmem; subst hmem; simp at hres
                      | false =>
                          simp only [processFrom, hc, hx, hv, List.mem_cons] at hmem
                          rcases hmem with hlg | hmem
                          · subst hlg
                            by_cases hn : attempt = n - 1
                            · simp [hn] at hres; exact hres.symm
                            · simp [hn] at hres
                          · exact ih (attempt + 1) _ _ lg v hmem hres

/-- If every completion delivers extractable content and the validator exits
non-zero on every attempt, the loop runs out of retries, restores the original
content on the final attempt, and returns `Err("Exceeded retry limit")`. -/
theorem processFrom_allFail (env : Env) (instruction original cmd : List Char) (n : Nat)
    (hgood : ∀ k s, k < n → completionDelivers (env.complete k s))
    (hval : ∀ k, k < n → env.validate k = .exit false) :
    ∀ fuel attempt current disk, fuel = n - attempt → attempt < n →
      ∃ tr, processFrom env instruction original (some cmd) n fuel attempt current disk =
        ⟨.err .exceededRetryLimit, original, tr⟩ := by
  intro fuel
  induction fuel with
  | zero => intro attempt current disk hfuel hlt; omega
  | succ f ih =>
      intro attempt current disk hfuel hlt
      obtain ⟨output, t, hc, hx⟩ := hgood attempt (userPrompt instruction current) hlt
      have hv := hval attempt hlt
      by_cases hn : attempt = n - 1
      · have hf0 : f = 0 := by omega
        subst hf0
        subst hn
        refine ⟨[⟨userPrompt instruction current, some t, some original, some original⟩], ?_⟩
        simp [processFrom, hc, hx, hv]
      · have hlt2 : attempt + 1 < n := by omega
        obtain ⟨tr, htr⟩ := ih (attempt + 1) t t (by omega) hlt2
        refine ⟨⟨userPrompt instruction current, some t, none, some t⟩ :: tr, ?_⟩
        simp [processFrom, hc, hx, hv, hn, htr]

/-- If every completion up to attempt `k` delivers extractable content, the
validator exits non-zero strictly before attempt `k` and exits zero at attempt
`k < n`, the loop stops at attempt `k` with the content written there on disk:
the trace has exactly `k - attempt + 1` entries, the last of which wrote the
final disk content. -/
theorem processFrom_passAt (env : Env) (instruction original cmd : List Char) (n k : Nat)
    (hgood : ∀ j s, j ≤ k → completionDelivers (env.complete j s))
    (hpass : env.validate k = .exit true) (hkn : k < n) :
    ∀ fuel attempt current disk, fuel = n - attempt → attempt ≤ k →
      (∀ j, attempt ≤ j → j < k → env.validate j = .exit false) →
      ∃ tr t p, processFrom env instruction original (some cmd) n fuel attempt current disk =
          ⟨.ok, t, tr ++ [⟨p, some t, none, none⟩]⟩ ∧ tr.length = k - attempt := by
  intro fuel
  induction fuel with
  | zero => intro attempt current disk hfuel hle _; omega
  | succ f ih =>
      intro attempt current disk hfuel hle hval
      obtain ⟨output, t, hc, hx⟩ := hgood attempt (userPrompt instruction current) hle
      by_cases hk : attempt = k
      · subst hk
        refine ⟨[], t, userPrompt instruction current, ?_, by simp⟩
        simp [processFrom, hc, hx, hpass]
      · have hltk : attempt < k := by omega
        have hv := hval attempt (le_refl attempt) hltk
        have hn : ¬ attempt = n - 1 := by omega
        obtain ⟨tr, t', p, htr, hlen⟩ := ih (attempt + 1) t t (by omega) (by omega)
          (fun j hj hjk => hval j (by omega) hjk)
        refine ⟨⟨userPrompt instruction current, some t, none, some t⟩ :: tr, t', p, ?_, ?_⟩
        · simp [processFrom, hc, hx, hv, hn, htr]
        · simp [hlen]; omega

/-! ## Concrete environments and inputs used in counterexamples and witnesses -/

/-- A completion output wrapping the single letter `x` between the markers. -/
def okOutput : List Char := "<CHANGED_FILE_CONTENTS>x</CHANGED_FILE_CONTENTS>".data

example : extractChanged okOutput = .ok ['x'] := by decide

/-- A world where every completion request fails at the transport level. -/
def transportEnv : Env := ⟨fun _ _ => .transportErr, fun _ => .exit false⟩

/-- A world where every completion response is malformed JSON. -/
def parseErrEnv : Env := ⟨fun _ _ => .parseErr, fun _ => .exit false⟩

/-- A world with well-formed completions and a validator that always fails. -/
def okFailEnv : Env := ⟨fun _ _ => .content okOutput, fun _ => .exit false⟩

/-- A world with well-formed completions and a validator whose subprocess
cannot be spawned. -/
def okSpawnErrEnv : Env := ⟨fun _ _ => .content okOutput, fun _ => .spawnErr⟩

/-- A world with well-formed completions and a validator that fails on
attempt 0 and passes on attempt 1. -/
def passSecondEnv : Env := ⟨fun _ _ => .content okOutput, fun a => .exit (decide (a = 1))⟩

/-- A completion text whose first end-marker occurrence precedes the begin
marker, which also occurs, followed by another end marker. -/
def earlyEndInput : List Char :=
  "</CHANGED_FILE_CONTENTS><CHANGED_FILE_CONTENTS>x</CHANGED_FILE_CONTENTS>".data

/-- A completion text where the begin marker occurs only after the (only)
end marker. -/
def reversedMarkersInput : List Char :=
  "</CHANGED_FILE_CONTENTS>A<CHANGED_FILE_CONTENTS>".data

/-! ## Claims -/

/-- C1, counterexample: with a retry budget of 2 and a transport failure on
the first attempt, `process_file` returns the transport error after a single
attempt instead of advancing to attempt 2 — the failure aborts the file's
processing before the budget is exhausted, so the claim as stated is false. -/
theorem claim1_cex :
    (process_file transportEnv ['i'] (some ['v']) 2 ['o']).result = .err .transport ∧
    (process_file transportEnv ['i'] (some ['v']) 2 ['o']).trace.length = 1 := by decide

/-- C1 (amended): a transport failure, a malformed completion response, a
missing content field, or a missing-marker extraction failure on any attempt
aborts the file's processing immediately with a distinct error: nothing is
written, nothing is restored (even on the final attempt), and no further
attempt runs, however many retries remain. -/
theorem claim1_thm (env : Env) (instruction original : List Char)
    (vc : Option (List Char)) (n fuel attempt : Nat) (current disk : List Char)
    (e : ProcError) (hfuel : 0 < fuel)
    (habort : attemptAbortError (env.complete attempt (userPrompt instruction current)) =
      some e) :
    processFrom env instruction original vc n fuel attempt current disk =
      ⟨.err e, disk, [⟨userPrompt instruction current, none, none, none⟩]⟩ := by
  obtain ⟨f, rfl⟩ : ∃ f, fuel = f + 1 := ⟨fuel - 1, by omega⟩
  cases hc : env.complete attempt (userPrompt instruction current) with
  | transportErr =>
      rw [hc] at habort; simp only [attemptAbortError, Option.some.injEq] at habort
      subst habort; simp [processFrom, hc]
  | parseErr =>
      rw [hc] at habort; simp only [attemptAbortError, Option.some.injEq] at habort
      subst habort; simp [processFrom, hc]
  | noContent =>
      rw [hc] at habort; simp only [attemptAbortError, Option.some.injEq] at habort
      subst habort; simp [processFrom, hc]
  | content output =>
      rw [hc] at habort
      cases hx : extractChanged output with
      | ok t => rw [attemptAbortError, hx] at habort; simp at habort
      | panicked => rw [attemptAbortError, hx] at habort; simp at habort
      | startNotFound =>
          rw [attemptAbortError, hx, Option.some.injEq] at habort
          subst habort; simp [processFrom, hc, hx]
      | endNotFound =>
          rw [attemptAbortError, hx, Option.some.injEq] at habort
          subst habort; simp [processFrom, hc, hx]

theorem claim1_witness :
    0 < 1 ∧
    attemptAbortError (parseErrEnv.complete 0 (userPrompt ['i'] ['o'])) =
      some .malformedResponse ∧
    processFrom parseErrEnv ['i'] ['o'] (some ['v']) 1 1 0 ['o'] ['o'] =
      ⟨.err .malformedResponse, ['o'], [⟨userPrompt ['i'] ['o'], none, none, none⟩]⟩ :=
  ⟨by decide, by decide,
    claim1_thm parseErrEnv ['i'] ['o'] (some ['v']) 1 1 0 ['o'] ['o'] .malformedResponse
      (by decide) (by decide)⟩

/-- C2: the claim says the end-marker search starts at or after the offset
following the begin marker; in the code (`output.find(end_tag)`, line 158) it
starts at the beginning of the whole text, so on a text whose first end-marker
occurrence precedes the begin marker the slice `output[start..end]` panics,
while the extraction specified by the claim (`specExtract`) returns the
trimmed text `x` between the begin marker and the first end marker after it. -/
theorem claim2_thm :
    extractChanged earlyEndInput = .panicked ∧
    specExtract earlyEndInput = some ['x'] := by decide

/-- C3: with either marker absent the extraction does fail with a recoverable
error, but when the begin marker occurs only after the end marker the code
panics at the out-of-order slice instead of producing a recoverable
ExtractionFailed outcome, so the claim's begin-after-end case is a code bug. -/
theorem claim3_thm :
    extractChanged "completely markerless".data = .startNotFound ∧
    extractChanged "<CHANGED_FILE_CONTENTS>A".data = .endNotFound ∧
    extractChanged reversedMarkersInput = .panicked := by decide

/-- C4: with a validator configured that fails (exits non-zero) on every one
of the `n ≥ 1` attempts, each completion delivering extractable content, the
file ends byte-identical to its original content, `process_file` reports the
retry-exhaustion failure, and the batch continues with the next file. -/
theorem claim4_thm (env : Env) (instruction cmd : List Char) (n : Nat)
    (disk0 : List Char) (rest : List FileJob) (hn : 1 ≤ n)
    (hgood : ∀ k s, k < n → completionDelivers (env.complete k s))
    (hval : ∀ k, k < n → env.validate k = .exit false) :
    ∃ tr, process_file env instruction (some cmd) n disk0 =
        ⟨.err .exceededRetryLimit, disk0, tr⟩ ∧
      runBatch (⟨env, instruction, some cmd, n, disk0⟩ :: rest) =
        ⟨.err .exceededRetryLimit, disk0, tr⟩ :: runBatch rest := by
  obtain ⟨tr, htr⟩ := processFrom_allFail env instruction disk0 cmd n hgood hval
    n 0 disk0 disk0 (by omega) (by omega)
  have hpf : process_file env instruction (some cmd) n disk0 =
      ⟨.err .exceededRetryLimit, disk0, tr⟩ := htr
  refine ⟨tr, hpf, ?_⟩
  simp [runBatch, hpf]

theorem claim4_witness :
    1 ≤ 1 ∧
    ∃ tr, process_file okFailEnv ['i'] (some ['v']) 1 ['o'] =
        ⟨.err .exceededRetryLimit, ['o'], tr⟩ ∧
      runBatch (⟨okFailEnv, ['i'], some ['v'], 1, ['o']⟩ :: []) =
        ⟨.err .exceededRetryLimit, ['o'], tr⟩ :: runBatch [] :=
  ⟨by decide,
    claim4_thm okFailEnv ['i'] ['v'] 1 ['o'] [] (by decide)
      (fun _ _ _ => ⟨okOutput, ['x'], rfl, by decide⟩)
      (fun _ _ => rfl)⟩

/-- C5: with no validator configured and a first attempt whose completion
succeeds and extracts, exactly one round-trip happens (one trace entry),
processing succeeds right after the write, and the final content is the
extracted (trimmed) content of that round-trip, for every retry budget
`n ≥ 1`. -/
theorem claim5_thm (env : Env) (instruction : List Char) (n : Nat)
    (disk0 output t : List Char) (hn : 0 < n)
    (hc : env.complete 0 (userPrompt instruction disk0) = .content output)
    (hx : extractChanged output = .ok t) :
    process_file env instruction none n disk0 =
      ⟨.ok, t, [⟨userPrompt instruction disk0, some t, none, none⟩]⟩ := by
  obtain ⟨m, rfl⟩ : ∃ m, n = m + 1 := ⟨n - 1, by omega⟩
  simp [process_file, processFrom, hc, hx]

theorem claim5_witness :
    0 < 5 ∧
    process_file okFailEnv ['i'] none 5 ['o'] =
      ⟨.ok, ['x'], [⟨userPrompt ['i'] ['o'], some ['x'], none, none⟩]⟩ :=
  ⟨by decide, claim5_thm okFailEnv ['i'] 5 ['o'] okOutput ['x'] (by decide) rfl (by decide)⟩

/-- C6: with a validator configured that exits non-zero strictly before
attempt `k` and exits zero at attempt `k < n` (0-indexed), completions
delivering extractable content, processing reports success, the final content
is exactly what was written on attempt `k`, and the trace has `k + 1` entries,
so no attempt `k + 1` (0-indexed) ever runs. -/
theorem claim6_thm (env : Env) (instruction cmd : List Char) (n k : Nat)
    (disk0 : List Char) (hkn : k < n)
    (hgood : ∀ j s, j ≤ k → completionDelivers (env.complete j s))
    (hval : ∀ j, j < k → env.validate j = .exit false)
    (hpass : env.validate k = .exit true) :
    ∃ tr t p, process_file env instruction (some cmd) n disk0 =
        ⟨.ok, t, tr ++ [⟨p, some t, none, none⟩]⟩ ∧ tr.length = k := by
  obtain ⟨tr, t, p, heq, hlen⟩ := processFrom_passAt env instruction disk0 cmd n k hgood
    hpass hkn n 0 disk0 disk0 (by omega) (by omega) (fun j _ hj => hval j hj)
  exact ⟨tr, t, p, heq, by omega⟩

theorem claim6_witness :
    1 < 3 ∧
    ∃ tr t p, process_file passSecondEnv ['i'] (some ['v']) 3 ['o'] =
        ⟨.ok, t, tr ++ [⟨p, some t, none, none⟩]⟩ ∧ tr.length = 1 :=
  ⟨by decide,
    claim6_thm passSecondEnv ['i'] ['v'] 3 1 ['o'] (by decide)
      (fun _ _ _ => ⟨okOutput, ['x'], rfl, by decide⟩)
      (fun j hj => by
        have h0 : j = 0 := by omega
        subst h0; decide)
      (by decide)⟩

/-- C7: the original-content snapshot is the file content read once at the
start of processing, before any write; it is threaded unchanged through the
loop, and every restoring write performed anywhere during the file's
processing writes exactly that snapshot value. -/
theorem claim7_thm (env : Env) (instruction : List Char) (vc : Option (List Char))
    (n : Nat) (disk0 : List Char) (lg : AttemptLog) (v : List Char)
    (hmem : lg ∈ (process_file env instruction vc n disk0).trace)
    (hres : lg.restoredWith = some v) : v = disk0 :=
  processFrom_restoredWith env instruction disk0 vc n n 0 disk0 disk0 lg v hmem hres

theorem claim7_witness :
    (⟨userPrompt ['i'] ['o'], some ['x'], some ['o'], some ['o']⟩ : AttemptLog) ∈
      (process_file okFailEnv ['i'] (some ['v']) 1 ['o']).trace ∧
    (⟨userPrompt ['i'] ['o'], some ['x'], some ['o'], some ['o']⟩ : AttemptLog).restoredWith =
      some ['o'] ∧
    (['o'] : List Char) = ['o'] :=
  ⟨by decide, by decide,
    claim7_thm okFailEnv ['i'] (some ['v']) 1 ['o']
      ⟨userPrompt ['i'] ['o'], some ['x'], some ['o'], some ['o']⟩ ['o']
      (by decide) (by decide)⟩

/-- C8: on a non-final attempt whose validation fails, the failed candidate
is written and kept on disk (no restore), the re-read of the file returns
exactly that candidate, and the next attempt's user message embeds it as the
file contents. -/
theorem claim8_thm (env : Env) (instruction original cmd : List Char)
    (n fuel attempt : Nat) (current disk output t : List Char)
    (hlt : attempt + 1 < n) (hfuel : fuel = n - attempt)
    (hc : env.complete attempt (userPrompt instruction current) = .content output)
    (hx : extractChanged output = .ok t)
    (hv : env.validate attempt = .exit false) :
    ∃ rest,
      (processFrom env instruction original (some cmd) n fuel attempt current disk).trace =
        ⟨userPrompt instruction current, some t, none, some t⟩ :: rest ∧
      rest.head?.map AttemptLog.prompt = some (userPrompt instruction t) := by
  obtain ⟨f, rfl⟩ : ∃ f, fuel = f + 1 := ⟨fuel - 1, by omega⟩
  have hn : ¬ attempt = n - 1 := by omega
  have hf : 0 < f := by omega
  refine ⟨(processFrom env instruction original (some cmd) n f (attempt + 1) t t).trace,
    ?_, ?_⟩
  · simp [processFrom, hc, hx, hv, hn]
  · exact processFrom_headPrompt env instruction original (some cmd) n f (attempt + 1) t t hf

theorem claim8_witness :
    0 + 1 < 2 ∧
    ∃ rest,
      (processFrom okFailEnv ['i'] ['o'] (some ['v']) 2 2 0 ['o'] ['o']).trace =
        ⟨userPrompt ['i'] ['o'], some ['x'], none, some ['x']⟩ :: rest ∧
      rest.head?.map AttemptLog.prompt = some (userPrompt ['i'] ['x']) :=
  ⟨by decide,
    claim8_thm okFailEnv ['i'] ['o'] ['v'] 2 2 0 ['o'] ['o'] okOutput ['x']
      (by decide) (by decide) rfl (by decide) rfl⟩

/-- C9: `"0"` parses as an unsigned integer, so a retry count of 0 is
accepted at startup, and with `n_retries = 0` the loop body never runs: no
completion call is made (empty trace), nothing is written, the file keeps its
original content, and the per-file failure is `Exceeded retry limit`. -/
theorem claim9_thm :
    parseUsize "0".data = some 0 ∧
    ∀ (env : Env) (instruction : List Char) (vc : Option (List Char)) (disk0 : List Char),
      process_file env instruction vc 0 disk0 = ⟨.err .exceededRetryLimit, disk0, []⟩ :=
  ⟨by decide, fun _ _ _ _ => rfl⟩

/-- C10: if the validator subprocess cannot be spawned, `process_file` aborts
at once with the validator-spawn error: the unvalidated candidate stays on
disk and the original content is not restored, even on the final attempt. -/
theorem claim10_thm (env : Env) (instruction original cmd : List Char)
    (n fuel attempt : Nat) (current disk output t : List Char)
    (hfuel : 0 < fuel)
    (hc : env.complete attempt (userPrompt instruction current) = .content output)
    (hx : extractChanged output = .ok t)
    (hv : env.validate attempt = .spawnErr) :
    processFrom env instruction original (some cmd) n fuel attempt current disk =
      ⟨.err .validatorSpawn, t, [⟨userPrompt instruction current, some t, none, none⟩]⟩ := by
  obtain ⟨f, rfl⟩ : ∃ f, fuel = f + 1 := ⟨fuel - 1, by omega⟩
  simp [processFrom, hc, hx, hv]

theorem claim10_witness :
    0 < 1 ∧
    processFrom okSpawnErrEnv ['i'] ['o'] (some ['v']) 1 1 0 ['o'] ['o'] =
      ⟨.err .validatorSpawn, ['x'], [⟨userPrompt ['i'] ['o'], some ['x'], none, none⟩]⟩ :=
  ⟨by decide,
    claim10_thm okSpawnErrEnv ['i'] ['o'] ['v'] 1 1 0 ['o'] ['o'] okOutput ['x']
      (by decide) rfl (by decide) rfl⟩

end RefactorAssistant
